import Mathlib

/-!
Shallow embedding of the cohort-analytics core of the repository:
the profile builder `get_profiles` and the smoother `filter_data`
(src/marketing_research_app_pro), the engines `get_conversion`,
`get_ltv` (src/marketing_research_app_pro) and `get_retention`
(src/marketing_research_mobile_app).

Modelling conventions.
* Timestamps are rationals counting days since the epoch; the pandas
  `.dt.date` of a timestamp is its floor, and the `.dt.days` of a
  timedelta is the floor of the day difference.
* A DataFrame is a list of records; `merge(..., how='left')` is a
  `flatMap` that emits one row per matching right-hand record and keeps
  a single row (with `Option.none` standing for NaN) when there is no
  match; `pivot_table` / `groupby` aggregates are explicit distinct
  counts and finite sums.
* A list of grouping dimensions is modelled as a key function
  `Profile → K` into an arbitrary type with decidable equality: a
  concrete dimension list corresponds to the tuple of the selected
  profile columns.  The source's fallback for an empty dimension list
  (a constant `cohort` column `'All users'`) is the constant key
  function, and its dynamics grouping (`['dt']` with `cohort` removed)
  differs from the parameterised `(key, dt)` grouping only by the
  bijection dropping the constant component.
* The column selection `result[['cohort_size'] + list(range(horizon_days))]`
  raises `KeyError` when one of the day columns `0 .. horizon_days-1`
  is absent from the pivot; the grouping functions therefore return an
  `Option`, with `none` modelling the raised error.
-/

namespace Spec2Proof

/-- `pandas` `.dt.date` of a timestamp measured in (possibly fractional)
days since the epoch. -/
def dateOf (t : ℚ) : ℤ := ⌊t⌋

/-- Month (1..12) of a day counted from the epoch 1970-01-01, by the
standard civil-from-days calendar algorithm; models `pandas` `.dt.month`
(all divisions act on non-negative operands for post-1970 inputs). -/
def civilMonthOfDay (day : ℤ) : ℤ :=
  let z := day + 719468
  let era := (if 0 ≤ z then z else z - 146096) / 146097
  let doe := z - era * 146097
  let yoe := (doe - doe / 1460 + doe / 36524 - doe / 146096) / 365
  let doy := doe - (365 * yoe + yoe / 4 - yoe / 100)
  let mp := (5 * doy + 2) / 153
  mp + (if mp < 10 then 3 else -9)

/-- A row of the `visits` input table. -/
structure Visit where
  user_id : ℕ
  session_start : ℚ
  channel : String
  device : String
  region : String
deriving DecidableEq

/-- A row of the `orders` / `purchases` input table. -/
structure Order where
  user_id : ℕ
  event_dt : ℚ
  revenue : ℚ
deriving DecidableEq

/-- A row of the `sessions` input table. -/
structure Session where
  user_id : ℕ
  session_start : ℚ
deriving DecidableEq

/-- A row of the `ad_costs` input table (`dt` is a timestamp before
`get_profiles` overwrites it with its date). -/
structure AdCost where
  dt : ℚ
  channel : String
  costs : ℚ
deriving DecidableEq

/-- A row of the profiles table built by `get_profiles` (and the row
format the engines expect of their `profiles` argument). -/
structure Profile where
  user_id : ℕ
  first_ts : ℚ
  dt : ℤ
  month : ℤ
  channel : String
  device : String
  region : String
  payer : Bool
  acquisition_cost : ℚ
deriving DecidableEq

/-! ### Profile builder (src/marketing_research_app_pro/def_get_profiles.py) -/

/-- `visits.sort_values(by=['user_id','session_start']).groupby('user_id')
.agg('first')` restricted to one user: the user's visit with the least
`session_start` (first list occurrence on ties, the stable choice among
the implementation-defined tie-breaks of the unstable source sort). -/
def firstVisitOf (visits : List Visit) (u : ℕ) : Option Visit :=
  (visits.filter (fun v => decide (v.user_id = u))).foldl
    (fun acc v =>
      match acc with
      | none => some v
      | some w => if v.session_start < w.session_start then some v else some w)
    none

/-- The distinct `user_id`s of the visits table (the `groupby('user_id')`
index). -/
def userIds (visits : List Visit) : List ℕ := (visits.map (·.user_id)).dedup

/-- Lines 27-49 of def_get_profiles.py: first-touch attribution, `dt`,
`month` and the `payer` flag; `acquisition_cost` still unset (0). -/
def baseProfiles (visits : List Visit) (orders : List Order) : List Profile :=
  (userIds visits).filterMap fun u =>
    (firstVisitOf visits u).map fun v =>
      { user_id := u
        first_ts := v.session_start
        dt := dateOf v.session_start
        month := civilMonthOfDay (dateOf v.session_start)
        channel := v.channel
        device := v.device
        region := v.region
        payer := orders.any (fun o => decide (o.user_id = u))
        acquisition_cost := 0 }

/-- `profiles.groupby(['dt','channel']).agg({'user_id':'nunique'})` at one
(date, channel) pair. -/
def newUsersCount (base : List Profile) (d : ℤ) (c : String) : ℕ :=
  ((base.filter (fun p => decide (p.dt = d) && decide (p.channel = c))).map
    (·.user_id)).dedup.length

/-- def_get_profiles.py: builds the profiles; the ad-cost merge is a left
join on `(dt, channel)` (one output row per matching ad-cost row, and a
single row with `acquisition_cost = 0` — the `fillna(0)` — when no ad-cost
row matches).  A matched row gets `costs / unique_users`; matched rows
always have `unique_users ≥ 1`, so the rational division never hits 0. -/
def get_profiles (visits : List Visit) (orders : List Order)
    (ad_costs : List AdCost) : List Profile :=
  let base := baseProfiles visits orders
  base.flatMap fun p =>
    let ms := ad_costs.filter fun ac =>
      decide (dateOf ac.dt = p.dt) && decide (ac.channel = p.channel)
    match ms with
    | [] => [p]
    | ls => ls.map fun ac =>
        { p with acquisition_cost :=
            ac.costs / (newUsersCount base p.dt p.channel : ℚ) }

/-- Caller-visible content of the `ad_costs` argument after `get_profiles`
returns: line 60 (`ad_costs['dt'] = ad_costs['dt'].dt.date`) assigns into
the caller's frame before the later `merge` rebinds the local name, so the
caller's `dt` column is overwritten with its date component. -/
def get_profiles_ad_costs_after (ad_costs : List AdCost) : List AdCost :=
  ad_costs.map fun ac => { ac with dt := (dateOf ac.dt : ℚ) }

/-- Caller-visible content of the `visits` argument after `get_profiles`:
`sort_values`, `groupby` and `merge` all return fresh frames and no
statement assigns into `visits`, so it is unchanged. -/
def get_profiles_visits_after (visits : List Visit) : List Visit := visits

/-- Caller-visible content of the `orders` argument after `get_profiles`:
only read (via `orders['user_id'].unique()`), never assigned into. -/
def get_profiles_orders_after (orders : List Order) : List Order := orders

/-! ### Time smoother (src/marketing_research_app_pro/def_filter_data.py) -/

/-- One output cell of `Series.rolling(window).mean()` (trailing window,
`min_periods = window`): defined exactly when the window of `window`
positions ending at `j` exists and all its values are non-NaN, in which
case it is their mean.  (pandas rejects `window = 0`; the claims only
concern positive windows.) -/
def rollingMeanAt (window : ℕ) (xs : List (Option ℚ)) (j : ℕ) : Option ℚ :=
  if window ≤ j + 1 ∧ window ≠ 0 then
    let vals := (List.range window).filterMap fun i =>
      xs.getD (j + 1 - window + i) none
    if vals.length = window then some (vals.sum / (window : ℚ)) else none
  else none

/-- `Series.rolling(window).mean()` over a whole column. -/
def rollingMean (window : ℕ) (xs : List (Option ℚ)) : List (Option ℚ) :=
  (List.range xs.length).map (rollingMeanAt window xs)

/-- def_filter_data.py: replaces every column of the table by its rolling
mean.  A table is a list of (column name, cells) pairs; a `none` cell is
a NaN. -/
def filter_data (df : List (String × List (Option ℚ))) (window : ℕ) :
    List (String × List (Option ℚ)) :=
  df.map fun c => (c.1, rollingMean window c.2)

/-- Caller-visible content of the `df` argument after `filter_data`
returns: the loop assigns `df[column] = df[column].rolling(window).mean()`
into the caller's frame and returns the same object, so the caller's table
is the smoothed table, not the original. -/
def filter_data_df_after (df : List (String × List (Option ℚ)))
    (window : ℕ) : List (String × List (Option ℚ)) :=
  filter_data df window

/-! ### Horizon filter (identical lines in the three engines) -/

/-- Lines 36-41 of def_get_conversion.py, 61-66 of def_get_ltv.py and
38-43 of def_get_retention.py: `last_suitable_acquisition_date` and the
`query('dt <= @last_suitable_acquisition_date')` over the profiles. -/
def horizonFilter (profiles : List Profile) (observation_date : ℚ)
    (horizon_days : ℕ) (ignore_horizon : Bool) : List Profile :=
  let last_suitable_acquisition_date :=
    if ignore_horizon then observation_date
    else observation_date - ((horizon_days : ℚ) - 1)
  profiles.filter fun p => decide ((p.dt : ℚ) ≤ last_suitable_acquisition_date)

/-! ### Joined raw tables of the three engines -/

/-- A row of conversion's `result_raw`: a horizon-eligible profile left-
joined with its first purchase (`none` columns are NaNs). -/
structure ConvRow where
  profile : Profile
  event_dt : Option ℚ
  lifetime : Option ℤ
deriving DecidableEq

/-- A row of retention's `result_raw`: a horizon-eligible profile left-
joined with one of its sessions. -/
structure SessRow where
  profile : Profile
  session_start : Option ℚ
  lifetime : Option ℤ
deriving DecidableEq

/-- A row of LTV's `result_raw`: a horizon-eligible profile left-joined
with one of its purchases. -/
structure LtvRow where
  profile : Profile
  event_dt : Option ℚ
  revenue : Option ℚ
  lifetime : Option ℤ
deriving DecidableEq

/-- `purchases.sort_values(by=['user_id','event_dt']).groupby('user_id')
.agg({'event_dt':'first'})` restricted to one user: the earliest purchase. -/
def firstPurchaseOf (purchases : List Order) (u : ℕ) : Option Order :=
  (purchases.filter (fun o => decide (o.user_id = u))).foldl
    (fun acc o =>
      match acc with
      | none => some o
      | some w => if o.event_dt < w.event_dt then some o else some w)
    none

/-- Lines 36-59 of def_get_conversion.py: horizon filter, left merge with
the per-user first purchases (at most one right-hand row per user, hence a
plain map), and the lifetime column `(event_dt - first_ts).dt.days`. -/
def conv_result_raw (profiles : List Profile) (purchases : List Order)
    (observation_date : ℚ) (horizon_days : ℕ) (ignore_horizon : Bool) :
    List ConvRow :=
  (horizonFilter profiles observation_date horizon_days ignore_horizon).map
    fun p =>
      match firstPurchaseOf purchases p.user_id with
      | none => ⟨p, none, none⟩
      | some o => ⟨p, some o.event_dt, some ⌊o.event_dt - p.first_ts⌋⟩

/-- Lines 38-51 of def_get_retention.py: horizon filter, left merge with
every session of the user, and the lifetime column. -/
def ret_result_raw (profiles : List Profile) (sessions : List Session)
    (observation_date : ℚ) (horizon_days : ℕ) (ignore_horizon : Bool) :
    List SessRow :=
  (horizonFilter profiles observation_date horizon_days ignore_horizon).flatMap
    fun p =>
      match sessions.filter (fun s => decide (s.user_id = p.user_id)) with
      | [] => [⟨p, none, none⟩]
      | es => es.map fun s =>
          ⟨p, some s.session_start, some ⌊s.session_start - p.first_ts⌋⟩

/-- Lines 60-74 of def_get_ltv.py: horizon filter, left merge with every
purchase of the user, and the lifetime column. -/
def ltv_result_raw (profiles : List Profile) (purchases : List Order)
    (observation_date : ℚ) (horizon_days : ℕ) (ignore_horizon : Bool) :
    List LtvRow :=
  (horizonFilter profiles observation_date horizon_days ignore_horizon).flatMap
    fun p =>
      match purchases.filter (fun o => decide (o.user_id = p.user_id)) with
      | [] => [⟨p, none, none, none⟩]
      | es => es.map fun o =>
          ⟨p, some o.event_dt, some o.revenue, some ⌊o.event_dt - p.first_ts⌋⟩

/-! ### Shared grouping/pivoting helpers (the bodies of the three
`group_by_dimensions` inner functions) -/

section Aggregation

variable {R K : Type} [DecidableEq K]

/-- The set of lifetime-day column labels of a pivot: the lifetimes
observed on at least one row whose pivoted value is non-NaN (`lt` already
composes the NaN-dropping of `pivot_table` into the lifetime lookup). -/
def observedLifetimes (df : List R) (lt : R → Option ℤ) : Finset ℤ :=
  (df.filterMap lt).toFinset

/-- One pivot cell with `aggfunc='nunique'` on `user_id`: the number of
distinct users among the rows of key `k` and lifetime `l`. -/
def nuniqueAt (df : List R) (user : R → ℕ) (key : R → K)
    (lt : R → Option ℤ) (k : K) (l : ℤ) : ℕ :=
  ((df.filter fun r => decide (key r = k) && decide (lt r = some l)).map
    user).dedup.length

/-- A cell after `fillna(0).cumsum(axis=1)`: the pivot columns are sorted
ascending, so the cumulative value at day `d` sums the cells of every
observed lifetime `≤ d`. -/
def cumNuniqueAt (df : List R) (user : R → ℕ) (key : R → K)
    (lt : R → Option ℤ) (k : K) (d : ℤ) : ℕ :=
  ∑ l ∈ (observedLifetimes df lt).filter (· ≤ d), nuniqueAt df user key lt k l

/-- `df.groupby(dims).agg({'user_id':'nunique'})`: the cohort size of the
dimension tuple `k`. -/
def cohortSize (df : List R) (user : R → ℕ) (key : R → K) (k : K) : ℕ :=
  ((df.filter fun r => decide (key r = k)).map user).dedup.length

/-- The row index of the grouped table: the distinct dimension tuples of
`df` (the `cohort_sizes` index, which the left merge keeps). -/
def groupedKeys (df : List R) (key : R → K) : List K := (df.map key).dedup

/-- The guard of the column selection
`result[['cohort_size'] + list(range(horizon_days))]`: true iff every day
`0 .. horizon_days - 1` is an existing pivot column. -/
def horizonCovered (df : List R) (lt : R → Option ℤ) (horizon_days : ℕ) :
    Bool :=
  (List.range horizon_days).all fun d =>
    decide ((d : ℤ) ∈ observedLifetimes df lt)

end Aggregation

/-- A produced cohort table: its row index, its restored `cohort_size`
column and its normalized day cells (`cell k d` for day columns
`d < horizon_days`). -/
structure CohortTable (K : Type) where
  keys : List K
  cohort_size : K → ℕ
  cell : K → ℕ → ℚ

/-- A produced ROI table: additionally carries the `cac` column. -/
structure RoiTable (K : Type) where
  keys : List K
  cohort_size : K → ℕ
  cac : K → ℚ
  cell : K → ℕ → ℚ

/-! ### Conversion engine (src/marketing_research_app_pro/def_get_conversion.py) -/

/-- Lines 67-83 of def_get_conversion.py (`group_by_dimensions`): pivot on
`nunique user_id`, `fillna(0).cumsum(axis=1)`, left merge of the cohort
sizes with `fillna(0)` (a key with no pivot row gets all-zero cells),
division of every cell by the cohort size, truncation of the day columns
to `range(horizon_days)` (`none` = the `KeyError` when a day column is
absent), and restoration of the literal `cohort_size` column. -/
def conversion_group_by_dimensions {K : Type} [DecidableEq K]
    (df : List ConvRow) (key : Profile → K) (horizon_days : ℕ) :
    Option (CohortTable K) :=
  if horizonCovered df (fun r => r.lifetime) horizon_days then
    some
      { keys := groupedKeys df (fun r => key r.profile)
        cohort_size := fun k =>
          cohortSize df (fun r => r.profile.user_id) (fun r => key r.profile) k
        cell := fun k d =>
          (cumNuniqueAt df (fun r => r.profile.user_id)
              (fun r => key r.profile) (fun r => r.lifetime) k (d : ℤ) : ℚ) /
            (cohortSize df (fun r => r.profile.user_id)
              (fun r => key r.profile) k : ℚ) }
  else none

/-- The tuple returned by `get_conversion`. -/
structure ConversionOutput (K : Type) where
  result_raw : List ConvRow
  result_grouped : Option (CohortTable K)
  result_in_time : Option (CohortTable (K × ℤ))

/-- def_get_conversion.py: raw joined table, static conversion table
(grouped by `key`) and dynamics table (grouped by `key` with the
acquisition date `dt` appended). -/
def get_conversion {K : Type} [DecidableEq K] (profiles : List Profile)
    (purchases : List Order) (observation_date : ℚ) (horizon_days : ℕ)
    (key : Profile → K) (ignore_horizon : Bool) : ConversionOutput K :=
  let raw := conv_result_raw profiles purchases observation_date horizon_days
    ignore_horizon
  { result_raw := raw
    result_grouped := conversion_group_by_dimensions raw key horizon_days
    result_in_time := conversion_group_by_dimensions raw
      (fun p => (key p, p.dt)) horizon_days }

/-- Caller-visible content of the table arguments after `get_conversion`:
`query`, `sort_values` and `merge` all return fresh frames, and the column
assignments (`lifetime`, `cohort`) target those fresh frames, so both
inputs are unchanged. -/
def get_conversion_inputs_after (profiles : List Profile)
    (purchases : List Order) : List Profile × List Order :=
  (profiles, purchases)

/-! ### Retention engine (src/marketing_research_mobile_app/def_get_retention.py) -/

/-- Lines 54-67 of def_get_retention.py (`group_by_dimensions`): same as
conversion's grouping but with NO `cumsum` — the pivot cells stay per-day
distinct-user counts (NaN cells become 0 only through the post-merge
`fillna(0)`). -/
def retention_group_by_dimensions {K : Type} [DecidableEq K]
    (df : List SessRow) (key : Profile → K) (horizon_days : ℕ) :
    Option (CohortTable K) :=
  if horizonCovered df (fun r => r.lifetime) horizon_days then
    some
      { keys := groupedKeys df (fun r => key r.profile)
        cohort_size := fun k =>
          cohortSize df (fun r => r.profile.user_id) (fun r => key r.profile) k
        cell := fun k d =>
          (nuniqueAt df (fun r => r.profile.user_id)
              (fun r => key r.profile) (fun r => r.lifetime) k (d : ℤ) : ℚ) /
            (cohortSize df (fun r => r.profile.user_id)
              (fun r => key r.profile) k : ℚ) }
  else none

/-- The tuple returned by `get_retention`. -/
structure RetentionOutput (K : Type) where
  result_raw : List SessRow
  result_grouped : Option (CohortTable (Bool × K))
  result_in_time : Option (CohortTable ((Bool × K) × ℤ))

/-- def_get_retention.py: the engine always prepends `payer` to the
dimension list (`dimensions = ['payer'] + dimensions`), so the grouping
key is `(payer, key)`. -/
def get_retention {K : Type} [DecidableEq K] (profiles : List Profile)
    (sessions : List Session) (observation_date : ℚ) (horizon_days : ℕ)
    (key : Profile → K) (ignore_horizon : Bool) : RetentionOutput K :=
  let raw := ret_result_raw profiles sessions observation_date horizon_days
    ignore_horizon
  let dims := fun p => (p.payer, key p)
  { result_raw := raw
    result_grouped := retention_group_by_dimensions raw dims horizon_days
    result_in_time := retention_group_by_dimensions raw
      (fun p => (dims p, p.dt)) horizon_days }

/-- Caller-visible content of the table arguments after `get_retention`:
as for `get_conversion`, only fresh frames are assigned into. -/
def get_retention_inputs_after (profiles : List Profile)
    (sessions : List Session) : List Profile × List Session :=
  (profiles, sessions)

/-! ### LTV/ROI engine (src/marketing_research_app_pro/def_get_ltv.py) -/

/-- The pivoted value of a row for `values='revenue'`: `pivot_table` drops
rows whose value is NaN, so a lifetime is an observed column label only
through rows with non-NaN revenue. -/
def revenueLifetime (r : LtvRow) : Option ℤ :=
  if r.revenue.isSome then r.lifetime else none

/-- One pivot cell with `aggfunc='sum'` on `revenue`. -/
def sumRevenueAt {K : Type} [DecidableEq K] (df : List LtvRow)
    (key : Profile → K) (k : K) (l : ℤ) : ℚ :=
  ((df.filter fun r =>
      decide (key r.profile = k) && decide (r.lifetime = some l)).filterMap
    (fun r => r.revenue)).sum

/-- The revenue cell after `fillna(0).cumsum(axis=1)`. -/
def cumRevenueAt {K : Type} [DecidableEq K] (df : List LtvRow)
    (key : Profile → K) (k : K) (d : ℤ) : ℚ :=
  ∑ l ∈ (observedLifetimes df revenueLifetime).filter (· ≤ d),
    sumRevenueAt df key k l

/-- Lines 103-112 of def_get_ltv.py: mean acquisition cost of a cohort,
computed over `df[['user_id','acquisition_cost'] + dims].drop_duplicates()`
— the distinct (user, cost) pairs within the cohort. -/
def cacOf {K : Type} [DecidableEq K] (df : List LtvRow) (key : Profile → K)
    (k : K) : ℚ :=
  let pairs := ((df.filter fun r => decide (key r.profile = k)).map
    fun r => (r.profile.user_id, r.profile.acquisition_cost)).dedup
  (pairs.map (·.2)).sum / (pairs.length : ℚ)

/-- Lines 81-131 of def_get_ltv.py (`group_by_dimensions`): the LTV table
(pivot on summed revenue, cumsum, normalize by cohort size, truncate,
restore `cohort_size`) and the ROI table derived from it.  The ROI row
filter `roi[~roi['cohort_size'].isin([np.inf])]` acts on the divided
`cohort_size` column: under IEEE division `cohort_size / cac` is `+inf`
exactly when `cohort_size > 0` and `cac = 0`, which is the dropping
condition modelled here. -/
def ltv_group_by_dimensions {K : Type} [DecidableEq K] (df : List LtvRow)
    (key : Profile → K) (horizon_days : ℕ) :
    Option (CohortTable K × RoiTable K) :=
  if horizonCovered df revenueLifetime horizon_days then
    let size := fun k =>
      cohortSize df (fun r => r.profile.user_id) (fun r => key r.profile) k
    let ltvCell := fun (k : K) (d : ℕ) =>
      cumRevenueAt df key k (d : ℤ) / (size k : ℚ)
    some
      ({ keys := groupedKeys df (fun r => key r.profile)
         cohort_size := size
         cell := ltvCell },
       { keys := (groupedKeys df (fun r => key r.profile)).filter fun k =>
           ! (decide (0 < size k) && decide (cacOf df key k = 0))
         cohort_size := size
         cac := fun k => cacOf df key k
         cell := fun k d => ltvCell k d / cacOf df key k })
  else none

/-- The tuple returned by `get_ltv`. -/
structure LtvOutput (K : Type) where
  result_raw : List LtvRow
  result_grouped : Option (CohortTable K)
  result_in_time : Option (CohortTable (K × ℤ))
  roi_grouped : Option (RoiTable K)
  roi_in_time : Option (RoiTable (K × ℤ))

/-- def_get_ltv.py: raw joined table, static and dynamics LTV tables, and
the corresponding ROI tables. -/
def get_ltv {K : Type} [DecidableEq K] (profiles : List Profile)
    (purchases : List Order) (observation_date : ℚ) (horizon_days : ℕ)
    (key : Profile → K) (ignore_horizon : Bool) : LtvOutput K :=
  let raw := ltv_result_raw profiles purchases observation_date horizon_days
    ignore_horizon
  let staticTables := ltv_group_by_dimensions raw key horizon_days
  let dynTables := ltv_group_by_dimensions raw (fun p => (key p, p.dt))
    horizon_days
  { result_raw := raw
    result_grouped := staticTables.map (·.1)
    result_in_time := dynTables.map (·.1)
    roi_grouped := staticTables.map (·.2)
    roi_in_time := dynTables.map (·.2) }

/-- Caller-visible content of the table arguments after `get_ltv`: as for
`get_conversion`, only fresh frames are assigned into. -/
def get_ltv_inputs_after (profiles : List Profile) (purchases : List Order) :
    List Profile × List Order :=
  (profiles, purchases)

/-! ### Accessors on optional tables (used to state the properties) -/

/-- Row index of an optional cohort table (empty when the call raised). -/
def tKeys {K : Type} : Option (CohortTable K) → List K
  | none => []
  | some t => t.keys

/-- `cohort_size` column of an optional cohort table. -/
def tSize {K : Type} : Option (CohortTable K) → K → ℕ
  | none => fun _ => 0
  | some t => t.cohort_size

/-- A day cell of an optional cohort table. -/
def tCell {K : Type} : Option (CohortTable K) → K → ℕ → ℚ
  | none => fun _ _ => 0
  | some t => t.cell

/-- Row index of an optional ROI table. -/
def rKeys {K : Type} : Option (RoiTable K) → List K
  | none => []
  | some t => t.keys

/-- `cac` column of an optional ROI table. -/
def rCac {K : Type} : Option (RoiTable K) → K → ℚ
  | none => fun _ => 0
  | some t => t.cac

/-- A day cell of an optional ROI table. -/
def rCell {K : Type} : Option (RoiTable K) → K → ℕ → ℚ
  | none => fun _ _ => 0
  | some t => t.cell

/-! ### Claim-side definition for cohort-size conservation -/

/-- The count the specification describes for `cohort_size`: the number
of distinct `user_id`s among the horizon-eligible profiles mapping to the
dimension tuple `k` (independent of any events).  Stated from the spec's
words, to be compared with the engines' computed `cohort_size` column. -/
def eligibleCohortSize {K : Type} [DecidableEq K] (profiles : List Profile)
    (observation_date : ℚ) (horizon_days : ℕ) (ignore_horizon : Bool)
    (key : Profile → K) (k : K) : ℕ :=
  (((horizonFilter profiles observation_date horizon_days
      ignore_horizon).filter fun p => decide (key p = k)).map
    (·.user_id)).dedup.length

/-! ### Concrete rows for evaluating the model on small inputs -/

/-- A profile literal (fixed device/region, date fields derived from the
first visit timestamp as `get_profiles` does). -/
def mkProfile (u : ℕ) (ts : ℚ) (ch : String) (pay : Bool) (cost : ℚ) :
    Profile :=
  { user_id := u, first_ts := ts, dt := ⌊ts⌋, month := civilMonthOfDay ⌊ts⌋,
    channel := ch, device := "d", region := "r", payer := pay,
    acquisition_cost := cost }

/-- Visits of the spec's end-to-end example: users 1 and 2 acquired on
day 0 via channel ads. -/
def exEndToEndVisits : List Visit :=
  [⟨1, 0, "ads", "d", "r"⟩, ⟨2, 0, "ads", "d", "r"⟩]

/-- Purchases of the end-to-end example: one purchase of revenue 20 by
user 1 at lifetime day 2. -/
def exEndToEndOrders : List Order := [⟨1, 2, 20⟩]

/-- Ad costs of the end-to-end example: spend 10 on day 0 for ads. -/
def exEndToEndAdCosts : List AdCost := [⟨0, "ads", 10⟩]

/-- The profiles the profile builder derives for the end-to-end example
(two profiles with acquisition cost 10 / 2 = 5). -/
def exEndToEndProfiles : List Profile :=
  get_profiles exEndToEndVisits exEndToEndOrders exEndToEndAdCosts

/-! ## Helper lemmas -/

/-- Transport a profile predicate across conversion's left merge: the
joined rows carry exactly the horizon-eligible profiles. -/
theorem exists_conv_raw (profiles : List Profile) (purchases : List Order)
    (observation_date : ℚ) (horizon_days : ℕ) (ignore_horizon : Bool)
    (P : Profile → Prop) :
    (∃ r ∈ conv_result_raw profiles purchases observation_date horizon_days
        ignore_horizon, P r.profile) ↔
      ∃ p ∈ horizonFilter profiles observation_date horizon_days
        ignore_horizon, P p := by
  simp only [conv_result_raw, List.mem_map]
  constructor
  · rintro ⟨r, ⟨p, hp, rfl⟩, hP⟩
    refine ⟨p, hp, ?_⟩
    cases hfp : firstPurchaseOf purchases p.user_id <;> simp [hfp] at hP <;>
      exact hP
  · rintro ⟨p, hp, hP⟩
    refine ⟨_, ⟨p, hp, rfl⟩, ?_⟩
    cases hfp : firstPurchaseOf purchases p.user_id <;> simp [hfp] <;> exact hP

/-- Transport a profile predicate across retention's left merge. -/
theorem exists_ret_raw (profiles : List Profile) (sessions : List Session)
    (observation_date : ℚ) (horizon_days : ℕ) (ignore_horizon : Bool)
    (P : Profile → Prop) :
    (∃ r ∈ ret_result_raw profiles sessions observation_date horizon_days
        ignore_horizon, P r.profile) ↔
      ∃ p ∈ horizonFilter profiles observation_date horizon_days
        ignore_horizon, P p := by
  simp only [ret_result_raw, List.mem_flatMap]
  constructor
  · rintro ⟨r, ⟨p, hp, hr⟩, hP⟩
    refine ⟨p, hp, ?_⟩
    rcases hes : sessions.filter (fun s => decide (s.user_id = p.user_id)) with
      _ | ⟨s, es⟩ <;> rw [hes] at hr <;> simp [List.mem_map] at hr
    · subst hr; exact hP
    · rcases hr with hr | ⟨a, _, hr⟩ <;> subst hr <;> exact hP
  · rintro ⟨p, hp, hP⟩
    rcases hes : sessions.filter (fun s => decide (s.user_id = p.user_id)) with
      _ | ⟨s, es⟩
    · exact ⟨⟨p, none, none⟩, ⟨p, hp, by rw [hes]; simp⟩, hP⟩
    · exact ⟨⟨p, some s.session_start, some ⌊s.session_start - p.first_ts⌋⟩,
        ⟨p, hp, by rw [hes]; simp⟩, hP⟩

/-- Transport a profile predicate across LTV's left merge. -/
theorem exists_ltv_raw (profiles : List Profile) (purchases : List Order)
    (observation_date : ℚ) (horizon_days : ℕ) (ignore_horizon : Bool)
    (P : Profile → Prop) :
    (∃ r ∈ ltv_result_raw profiles purchases observation_date horizon_days
        ignore_horizon, P r.profile) ↔
      ∃ p ∈ horizonFilter profiles observation_date horizon_days
        ignore_horizon, P p := by
  simp only [ltv_result_raw, List.mem_flatMap]
  constructor
  · rintro ⟨r, ⟨p, hp, hr⟩, hP⟩
    refine ⟨p, hp, ?_⟩
    rcases hes : purchases.filter (fun o => decide (o.user_id = p.user_id)) with
      _ | ⟨o, es⟩ <;> rw [hes] at hr <;> simp [List.mem_map] at hr
    · subst hr; exact hP
    · rcases hr with hr | ⟨a, _, hr⟩ <;> subst hr <;> exact hP
  · rintro ⟨p, hp, hP⟩
    rcases hes : purchases.filter (fun o => decide (o.user_id = p.user_id)) with
      _ | ⟨o, es⟩
    · exact ⟨⟨p, none, none, none⟩, ⟨p, hp, by rw [hes]; simp⟩, hP⟩
    · exact ⟨⟨p, some o.event_dt, some o.revenue, some ⌊o.event_dt - p.first_ts⌋⟩,
        ⟨p, hp, by rw [hes]; simp⟩, hP⟩

/-- A base profile (before the ad-cost merge) has acquisition cost 0. -/
theorem baseProfiles_cost_zero (visits : List Visit) (orders : List Order)
    (q : Profile) (hq : q ∈ baseProfiles visits orders) :
    q.acquisition_cost = 0 := by
  simp only [baseProfiles, List.mem_filterMap, Option.map_eq_some'] at hq
  obtain ⟨u, -, v, -, rfl⟩ := hq
  rfl

/-- If some day `d < horizon_days` is not an observed pivot column, the
guard of the truncating column selection is false. -/
theorem horizonCovered_eq_false {R : Type} (df : List R) (lt : R → Option ℤ)
    (horizon_days : ℕ) (d : ℕ) (hd : d < horizon_days)
    (hno : ∀ r ∈ df, lt r ≠ some (d : ℤ)) :
    horizonCovered df lt horizon_days = false := by
  unfold horizonCovered
  rw [List.all_eq_false]
  refine ⟨d, List.mem_range.mpr hd, ?_⟩
  simp only [decide_eq_true_eq, observedLifetimes, List.mem_toFinset,
    List.mem_filterMap, Bool.not_eq_true]
  rintro ⟨r, hr, hlt⟩
  exact hno r hr hlt

/-- A cumulative conversion cell is monotone in the day index: the sum
ranges over more observed lifetimes and the divisor is the same
non-negative cohort size. -/
theorem conv_group_cell_mono {K : Type} [DecidableEq K] (df : List ConvRow)
    (key : Profile → K) (horizon_days : ℕ) (k : K) (d : ℕ) :
    tCell (conversion_group_by_dimensions df key horizon_days) k d ≤
      tCell (conversion_group_by_dimensions df key horizon_days) k (d + 1) := by
  cases hcov : horizonCovered df (fun r => r.lifetime) horizon_days
  · simp [conversion_group_by_dimensions, hcov, tCell]
  · simp only [conversion_group_by_dimensions, hcov, if_true, tCell]
    have hsum : cumNuniqueAt df (fun r => r.profile.user_id)
        (fun r => key r.profile) (fun r => r.lifetime) k (d : ℤ) ≤
        cumNuniqueAt df (fun r => r.profile.user_id)
          (fun r => key r.profile) (fun r => r.lifetime) k ((d + 1 : ℕ) : ℤ) := by
      unfold cumNuniqueAt
      apply Finset.sum_le_sum_of_subset
      intro x hx
      rw [Finset.mem_filter] at hx ⊢
      refine ⟨hx.1, ?_⟩
      have hxd := hx.2
      push_cast at hxd ⊢
      omega
    rcases Nat.eq_zero_or_pos (cohortSize df (fun r => r.profile.user_id)
        (fun r => key r.profile) k) with h0 | hpos
    · simp [h0]
    · have hq : (0 : ℚ) < (cohortSize df (fun r => r.profile.user_id)
          (fun r => key r.profile) k : ℚ) := by exact_mod_cast hpos
      exact (div_le_div_iff_of_pos_right hq).mpr (by exact_mod_cast hsum)

/-! ## Claim theorems -/

/-- C5.  The horizon filter shared by `get_conversion`, `get_retention`
and `get_ltv` keeps exactly the profiles whose acquisition date `dt` is
`≤ observation_date - (horizon_days - 1)` days when `ignore_horizon` is
false, and exactly those with `dt ≤ observation_date` when it is true;
and the profiles carried by each engine's joined raw table are exactly
the filter's output. -/
theorem horizon_filter_membership :
    (∀ (profiles : List Profile) (observation_date : ℚ) (horizon_days : ℕ)
        (ignore_horizon : Bool) (p : Profile),
      p ∈ horizonFilter profiles observation_date horizon_days
          ignore_horizon ↔
        p ∈ profiles ∧
          (if ignore_horizon then (p.dt : ℚ) ≤ observation_date
           else (p.dt : ℚ) ≤ observation_date - ((horizon_days : ℚ) - 1))) ∧
    (∀ profiles purchases observation_date horizon_days ignore_horizon
        (p : Profile),
      (∃ r ∈ conv_result_raw profiles purchases observation_date horizon_days
          ignore_horizon, r.profile = p) ↔
        p ∈ horizonFilter profiles observation_date horizon_days
          ignore_horizon) ∧
    (∀ profiles sessions observation_date horizon_days ignore_horizon
        (p : Profile),
      (∃ r ∈ ret_result_raw profiles sessions observation_date horizon_days
          ignore_horizon, r.profile = p) ↔
        p ∈ horizonFilter profiles observation_date horizon_days
          ignore_horizon) ∧
    (∀ profiles purchases observation_date horizon_days ignore_horizon
        (p : Profile),
      (∃ r ∈ ltv_result_raw profiles purchases observation_date horizon_days
          ignore_horizon, r.profile = p) ↔
        p ∈ horizonFilter profiles observation_date horizon_days
          ignore_horizon) := by
  refine ⟨?_, ?_, ?_, ?_⟩
  · intro profiles observation_date horizon_days ignore_horizon p
    unfold horizonFilter
    cases ignore_horizon <;> simp [List.mem_filter]
  · intro profiles purchases observation_date horizon_days ignore_horizon p
    simpa using exists_conv_raw profiles purchases observation_date
      horizon_days ignore_horizon (fun q => q = p)
  · intro profiles sessions observation_date horizon_days ignore_horizon p
    simpa using exists_ret_raw profiles sessions observation_date
      horizon_days ignore_horizon (fun q => q = p)
  · intro profiles purchases observation_date horizon_days ignore_horizon p
    simpa using exists_ltv_raw profiles purchases observation_date
      horizon_days ignore_horizon (fun q => q = p)

/-- C4 (amended).  `get_conversion`, `get_retention` and `get_ltv` leave
their caller-supplied tables unmodified (all their column assignments
target frames freshly produced by `query` / `merge`), and `get_profiles`
leaves `visits` and `orders` unmodified; the exceptions the counterexample
exhibits are `filter_data` (in-place smoothing) and the `ad_costs`
argument of `get_profiles` (its `dt` column is overwritten). -/
theorem engine_inputs_unmodified :
    (∀ (profiles : List Profile) (purchases : List Order),
      get_conversion_inputs_after profiles purchases = (profiles, purchases)) ∧
    (∀ (profiles : List Profile) (sessions : List Session),
      get_retention_inputs_after profiles sessions = (profiles, sessions)) ∧
    (∀ (profiles : List Profile) (purchases : List Order),
      get_ltv_inputs_after profiles purchases = (profiles, purchases)) ∧
    (∀ visits, get_profiles_visits_after visits = visits) ∧
    (∀ orders, get_profiles_orders_after orders = orders) :=
  ⟨fun _ _ => rfl, fun _ _ => rfl, fun _ _ => rfl, fun _ => rfl, fun _ => rfl⟩

/-- C3.  Whenever some lifetime day `d < horizon_days` has no joined
event row with lifetime exactly `d`, the truncating column selection of
`get_conversion`, `get_retention` and `get_ltv` does not produce a zero
column for `d` but fails with a missing-column lookup error (`none`), so
these entry points are not total over otherwise well-formed inputs. -/
theorem missing_day_column_fails :
    (∀ (K : Type) [DecidableEq K] (profiles : List Profile)
        (purchases : List Order) (observation_date : ℚ) (horizon_days : ℕ)
        (key : Profile → K) (ignore_horizon : Bool) (d : ℕ),
      d < horizon_days →
      (∀ r ∈ conv_result_raw profiles purchases observation_date horizon_days
          ignore_horizon, r.lifetime ≠ some (d : ℤ)) →
      (get_conversion profiles purchases observation_date horizon_days key
          ignore_horizon).result_grouped = none ∧
      (get_conversion profiles purchases observation_date horizon_days key
          ignore_horizon).result_in_time = none) ∧
    (∀ (K : Type) [DecidableEq K] (profiles : List Profile)
        (sessions : List Session) (observation_date : ℚ) (horizon_days : ℕ)
        (key : Profile → K) (ignore_horizon : Bool) (d : ℕ),
      d < horizon_days →
      (∀ r ∈ ret_result_raw profiles sessions observation_date horizon_days
          ignore_horizon, r.lifetime ≠ some (d : ℤ)) →
      (get_retention profiles sessions observation_date horizon_days key
          ignore_horizon).result_grouped = none ∧
      (get_retention profiles sessions observation_date horizon_days key
          ignore_horizon).result_in_time = none) ∧
    (∀ (K : Type) [DecidableEq K] (profiles : List Profile)
        (purchases : List Order) (observation_date : ℚ) (horizon_days : ℕ)
        (key : Profile → K) (ignore_horizon : Bool) (d : ℕ),
      d < horizon_days →
      (∀ r ∈ ltv_result_raw profiles purchases observation_date horizon_days
          ignore_horizon, r.lifetime ≠ some (d : ℤ)) →
      (get_ltv profiles purchases observation_date horizon_days key
          ignore_horizon).result_grouped = none ∧
      (get_ltv profiles purchases observation_date horizon_days key
          ignore_horizon).result_in_time = none ∧
      (get_ltv profiles purchases observation_date horizon_days key
          ignore_horizon).roi_grouped = none ∧
      (get_ltv profiles purchases observation_date horizon_days key
          ignore_horizon).roi_in_time = none) := by
  refine ⟨?_, ?_, ?_⟩
  · intro K _ profiles purchases observation_date horizon_days key
      ignore_horizon d hd hno
    have hcov := horizonCovered_eq_false
      (conv_result_raw profiles purchases observation_date horizon_days
        ignore_horizon) (fun r => r.lifetime) horizon_days d hd hno
    constructor <;> simp [get_conversion, conversion_group_by_dimensions, hcov]
  · intro K _ profiles sessions observation_date horizon_days key
      ignore_horizon d hd hno
    have hcov := horizonCovered_eq_false
      (ret_result_raw profiles sessions observation_date horizon_days
        ignore_horizon) (fun r => r.lifetime) horizon_days d hd hno
    constructor <;> simp [get_retention, retention_group_by_dimensions, hcov]
  · intro K _ profiles purchases observation_date horizon_days key
      ignore_horizon d hd hno
    have hno2 : ∀ r ∈ ltv_result_raw profiles purchases observation_date
        horizon_days ignore_horizon, revenueLifetime r ≠ some (d : ℤ) := by
      intro r hr
      unfold revenueLifetime
      split
      · exact hno r hr
      · simp
    have hcov := horizonCovered_eq_false
      (ltv_result_raw profiles purchases observation_date horizon_days
        ignore_horizon) revenueLifetime horizon_days d hd hno2
    refine ⟨?_, ?_, ?_, ?_⟩ <;>
      simp [get_ltv, ltv_group_by_dimensions, hcov]

/-- C1 (amended).  In every conversion table produced by `get_conversion`
(static and dynamics), the normalized cells within each cohort row are
non-decreasing as the lifetime-day column index increases from 0 to
`horizon_days - 1`; retention tables are per-day (non-cumulated) shares
and are exempt, as the counterexample shows. -/
theorem conversion_cells_monotone :
    ∀ (K : Type) [DecidableEq K] (profiles : List Profile)
      (purchases : List Order) (observation_date : ℚ) (horizon_days : ℕ)
      (key : Profile → K) (ignore_horizon : Bool) (k : K) (k2 : K × ℤ)
      (d : ℕ), d + 1 < horizon_days →
      tCell (get_conversion profiles purchases observation_date horizon_days
          key ignore_horizon).result_grouped k d ≤
        tCell (get_conversion profiles purchases observation_date horizon_days
          key ignore_horizon).result_grouped k (d + 1) ∧
      tCell (get_conversion profiles purchases observation_date horizon_days
          key ignore_horizon).result_in_time k2 d ≤
        tCell (get_conversion profiles purchases observation_date horizon_days
          key ignore_horizon).result_in_time k2 (d + 1) := by
  intro K _ profiles purchases observation_date horizon_days key
    ignore_horizon k k2 d _
  exact ⟨conv_group_cell_mono _ key horizon_days k d,
    conv_group_cell_mono _ (fun p => (key p, p.dt)) horizon_days k2 d⟩

/-- Counting rows by (key, lifetime) classes over any set of lifetimes
never exceeds counting rows by key alone: each row falls in at most one
lifetime class. -/
theorem sum_countP_lifetime_le {R : Type} (df : List R) (q : R → Bool)
    (lt : R → Option ℤ) (T : Finset ℤ) :
    ∑ l ∈ T, df.countP (fun r => q r && decide (lt r = some l)) ≤
      df.countP q := by
  induction df with
  | nil => simp
  | cons r df ih =>
    simp only [List.countP_cons]
    rw [Finset.sum_add_distrib]
    have h2 : ∑ l ∈ T,
        (if (q r && decide (lt r = some l)) = true then 1 else 0) ≤
        (if q r = true then 1 else 0) := by
      cases hq : q r
      · simp
      · cases hlt : lt r with
        | none => simp [hlt]
        | some l0 =>
          have hterm : ∀ l ∈ T,
              (if (true && decide (some l0 = some l)) = true then 1 else 0) =
                (if l0 = l then (1 : ℕ) else 0) := by
            intro l _
            simp
          rw [Finset.sum_congr rfl hterm, Finset.sum_ite_eq]
          split <;> simp
    exact Nat.add_le_add ih h2

/-- The image of a filtered list under `user` stays duplicate-free when
the whole image is. -/
theorem filtered_users_nodup {R : Type} (df : List R) (user : R → ℕ)
    (q : R → Bool) (hnd : (df.map user).Nodup) :
    ((df.filter q).map user).Nodup :=
  List.Nodup.sublist (List.Sublist.map user (List.filter_sublist df)) hnd

/-- When no user occurs on two rows, the cumulative distinct-user count
of a cohort row never exceeds the cohort size. -/
theorem cumNuniqueAt_le_cohortSize {R K : Type} [DecidableEq K]
    (df : List R) (user : R → ℕ) (key : R → K) (lt : R → Option ℤ) (k : K)
    (d : ℤ) (hnd : (df.map user).Nodup) :
    cumNuniqueAt df user key lt k d ≤ cohortSize df user key k := by
  have hcell : ∀ l : ℤ, nuniqueAt df user key lt k l =
      df.countP (fun r => decide (key r = k) && decide (lt r = some l)) := by
    intro l
    unfold nuniqueAt
    rw [List.Nodup.dedup (filtered_users_nodup df user _ hnd),
      List.length_map, ← List.countP_eq_length_filter]
  have hsize : cohortSize df user key k =
      df.countP (fun r => decide (key r = k)) := by
    unfold cohortSize
    rw [List.Nodup.dedup (filtered_users_nodup df user _ hnd),
      List.length_map, ← List.countP_eq_length_filter]
  unfold cumNuniqueAt
  rw [hsize, Finset.sum_congr rfl (fun l _ => hcell l)]
  exact sum_countP_lifetime_le df _ lt _

/-- A per-day distinct-user count of a cohort row never exceeds the
cohort size (no duplicate-freeness needed: the users active at lifetime
`l` form a subset of the cohort's users). -/
theorem nuniqueAt_le_cohortSize {R K : Type} [DecidableEq K] (df : List R)
    (user : R → ℕ) (key : R → K) (lt : R → Option ℤ) (k : K) (l : ℤ) :
    nuniqueAt df user key lt k l ≤ cohortSize df user key k := by
  unfold nuniqueAt cohortSize
  rw [← List.card_toFinset, ← List.card_toFinset]
  apply Finset.card_le_card
  intro u hu
  simp only [List.mem_toFinset, List.mem_map, List.mem_filter,
    Bool.and_eq_true, decide_eq_true_eq] at hu ⊢
  obtain ⟨r, ⟨hr, hk, -⟩, hu⟩ := hu
  exact ⟨r, ⟨hr, hk⟩, hu⟩

/-- A dimension tuple appearing in the grouped index has at least one
row, hence a positive cohort size. -/
theorem cohortSize_pos_of_mem_keys {R K : Type} [DecidableEq K]
    (df : List R) (user : R → ℕ) (key : R → K) (k : K)
    (hk : k ∈ groupedKeys df key) : 0 < cohortSize df user key k := by
  unfold groupedKeys at hk
  rw [List.mem_dedup, List.mem_map] at hk
  obtain ⟨r, hr, rfl⟩ := hk
  have hmem : user r ∈ (df.filter (fun x => decide (key x = key r))).map user :=
    List.mem_map.mpr ⟨r, List.mem_filter.mpr ⟨hr, by simp⟩, rfl⟩
  unfold cohortSize
  exact List.length_pos.mpr (List.ne_nil_of_mem (List.mem_dedup.mpr hmem))

/-- Conversion's raw table has one row per eligible profile, so its user
column stays duplicate-free when the incoming profile table is. -/
theorem conv_raw_users_nodup (profiles : List Profile)
    (purchases : List Order) (observation_date : ℚ) (horizon_days : ℕ)
    (ignore_horizon : Bool)
    (hnd : (profiles.map Profile.user_id).Nodup) :
    ((conv_result_raw profiles purchases observation_date horizon_days
      ignore_horizon).map (fun r => r.profile.user_id)).Nodup := by
  have heq : (conv_result_raw profiles purchases observation_date
      horizon_days ignore_horizon).map (fun r => r.profile.user_id) =
      (horizonFilter profiles observation_date horizon_days
        ignore_horizon).map Profile.user_id := by
    unfold conv_result_raw
    rw [List.map_map]
    apply List.map_congr_left
    intro p _
    cases hfp : firstPurchaseOf purchases p.user_id <;> simp [hfp]
  rw [heq]
  exact List.Nodup.sublist
    (List.Sublist.map Profile.user_id (List.filter_sublist profiles)) hnd

/-- Bounds of a produced conversion cell: non-negative, and at most 1
when the raw table has no duplicated user. -/
theorem conv_group_cell_bounds {K : Type} [DecidableEq K]
    (df : List ConvRow) (key : Profile → K) (horizon_days : ℕ) (k : K)
    (d : ℕ) (hnd : (df.map (fun r => r.profile.user_id)).Nodup)
    (hk : k ∈ tKeys (conversion_group_by_dimensions df key horizon_days)) :
    0 ≤ tCell (conversion_group_by_dimensions df key horizon_days) k d ∧
      tCell (conversion_group_by_dimensions df key horizon_days) k d ≤ 1 := by
  cases hcov : horizonCovered df (fun r => r.lifetime) horizon_days
  · simp [conversion_group_by_dimensions, hcov, tKeys] at hk
  · simp only [conversion_group_by_dimensions, hcov, if_true, tKeys,
      tCell] at hk ⊢
    have hpos := cohortSize_pos_of_mem_keys df (fun r => r.profile.user_id)
      (fun r => key r.profile) k hk
    have hq : (0 : ℚ) < (cohortSize df (fun r => r.profile.user_id)
        (fun r => key r.profile) k : ℚ) := by exact_mod_cast hpos
    constructor
    · positivity
    · rw [div_le_one hq]
      exact_mod_cast cumNuniqueAt_le_cohortSize df
        (fun r => r.profile.user_id) (fun r => key r.profile)
        (fun r => r.lifetime) k (d : ℤ) hnd

/-- Bounds of a produced retention cell: always within [0, 1]. -/
theorem ret_group_cell_bounds {K : Type} [DecidableEq K]
    (df : List SessRow) (key : Profile → K) (horizon_days : ℕ) (k : K)
    (d : ℕ)
    (hk : k ∈ tKeys (retention_group_by_dimensions df key horizon_days)) :
    0 ≤ tCell (retention_group_by_dimensions df key horizon_days) k d ∧
      tCell (retention_group_by_dimensions df key horizon_days) k d ≤ 1 := by
  cases hcov : horizonCovered df (fun r => r.lifetime) horizon_days
  · simp [retention_group_by_dimensions, hcov, tKeys] at hk
  · simp only [retention_group_by_dimensions, hcov, if_true, tKeys,
      tCell] at hk ⊢
    have hpos := cohortSize_pos_of_mem_keys df (fun r => r.profile.user_id)
      (fun r => key r.profile) k hk
    have hq : (0 : ℚ) < (cohortSize df (fun r => r.profile.user_id)
        (fun r => key r.profile) k : ℚ) := by exact_mod_cast hpos
    constructor
    · positivity
    · rw [div_le_one hq]
      exact_mod_cast nuniqueAt_le_cohortSize df
        (fun r => r.profile.user_id) (fun r => key r.profile)
        (fun r => r.lifetime) k (d : ℤ)

/-- C6.  Every normalized cell of a conversion table (with the data-model
invariant of one profile per `user_id`, spec §3) and of a retention table
lies in [0, 1]: a (cumulative) distinct-user count never exceeds the
cohort size. -/
theorem conversion_retention_cells_bounded :
    (∀ (K : Type) [DecidableEq K] (profiles : List Profile)
        (purchases : List Order) (observation_date : ℚ) (horizon_days : ℕ)
        (key : Profile → K) (ignore_horizon : Bool) (k : K) (k2 : K × ℤ)
        (d : ℕ),
      (profiles.map Profile.user_id).Nodup → d < horizon_days →
      (k ∈ tKeys (get_conversion profiles purchases observation_date
          horizon_days key ignore_horizon).result_grouped →
        0 ≤ tCell (get_conversion profiles purchases observation_date
            horizon_days key ignore_horizon).result_grouped k d ∧
          tCell (get_conversion profiles purchases observation_date
            horizon_days key ignore_horizon).result_grouped k d ≤ 1) ∧
      (k2 ∈ tKeys (get_conversion profiles purchases observation_date
          horizon_days key ignore_horizon).result_in_time →
        0 ≤ tCell (get_conversion profiles purchases observation_date
            horizon_days key ignore_horizon).result_in_time k2 d ∧
          tCell (get_conversion profiles purchases observation_date
            horizon_days key ignore_horizon).result_in_time k2 d ≤ 1)) ∧
    (∀ (K : Type) [DecidableEq K] (profiles : List Profile)
        (sessions : List Session) (observation_date : ℚ) (horizon_days : ℕ)
        (key : Profile → K) (ignore_horizon : Bool) (k : Bool × K)
        (k2 : (Bool × K) × ℤ) (d : ℕ),
      d < horizon_days →
      (k ∈ tKeys (get_retention profiles sessions observation_date
          horizon_days key ignore_horizon).result_grouped →
        0 ≤ tCell (get_retention profiles sessions observation_date
            horizon_days key ignore_horizon).result_grouped k d ∧
          tCell (get_retention profiles sessions observation_date
            horizon_days key ignore_horizon).result_grouped k d ≤ 1) ∧
      (k2 ∈ tKeys (get_retention profiles sessions observation_date
          horizon_days key ignore_horizon).result_in_time →
        0 ≤ tCell (get_retention profiles sessions observation_date
            horizon_days key ignore_horizon).result_in_time k2 d ∧
          tCell (get_retention profiles sessions observation_date
            horizon_days key ignore_horizon).result_in_time k2 d ≤ 1)) := by
  constructor
  · intro K _ profiles purchases observation_date horizon_days key
      ignore_horizon k k2 d hnd _
    have hraw := conv_raw_users_nodup profiles purchases observation_date
      horizon_days ignore_horizon hnd
    exact ⟨fun hk => conv_group_cell_bounds _ key horizon_days k d hraw hk,
      fun hk2 => conv_group_cell_bounds _ (fun p => (key p, p.dt))
        horizon_days k2 d hraw hk2⟩
  · intro K _ profiles sessions observation_date horizon_days key
      ignore_horizon k k2 d _
    exact ⟨fun hk => ret_group_cell_bounds _ (fun p => (p.payer, key p))
        horizon_days k d hk,
      fun hk2 => ret_group_cell_bounds _
        (fun p => ((p.payer, key p), p.dt)) horizon_days k2 d hk2⟩

/-- The cohort size computed on conversion's joined table equals the
distinct-user count over the eligible profiles themselves. -/
theorem conv_raw_cohortSize {K : Type} [DecidableEq K]
    (profiles : List Profile) (purchases : List Order)
    (observation_date : ℚ) (horizon_days : ℕ) (ignore_horizon : Bool)
    (key : Profile → K) (k : K) :
    cohortSize (conv_result_raw profiles purchases observation_date
        horizon_days ignore_horizon)
      (fun r => r.profile.user_id) (fun r => key r.profile) k =
    eligibleCohortSize profiles observation_date horizon_days ignore_horizon
      key k := by
  unfold cohortSize eligibleCohortSize
  rw [← List.card_toFinset, ← List.card_toFinset]
  congr 1
  ext u
  simp only [List.mem_toFinset, List.mem_map, List.mem_filter,
    decide_eq_true_eq]
  constructor
  · rintro ⟨r, ⟨hr, hk⟩, hu⟩
    obtain ⟨p, hp, h1, h2⟩ := (exists_conv_raw profiles purchases
      observation_date horizon_days ignore_horizon
      (fun p => key p = k ∧ p.user_id = u)).mp ⟨r, hr, hk, hu⟩
    exact ⟨p, ⟨hp, h1⟩, h2⟩
  · rintro ⟨p, ⟨hp, h1⟩, h2⟩
    obtain ⟨r, hr, hk, hu⟩ := (exists_conv_raw profiles purchases
      observation_date horizon_days ignore_horizon
      (fun p => key p = k ∧ p.user_id = u)).mpr ⟨p, hp, h1, h2⟩
    exact ⟨r, ⟨hr, hk⟩, hu⟩

/-- The cohort size computed on retention's joined table equals the
distinct-user count over the eligible profiles themselves. -/
theorem ret_raw_cohortSize {K : Type} [DecidableEq K]
    (profiles : List Profile) (sessions : List Session)
    (observation_date : ℚ) (horizon_days : ℕ) (ignore_horizon : Bool)
    (key : Profile → K) (k : K) :
    cohortSize (ret_result_raw profiles sessions observation_date
        horizon_days ignore_horizon)
      (fun r => r.profile.user_id) (fun r => key r.profile) k =
    eligibleCohortSize profiles observation_date horizon_days ignore_horizon
      key k := by
  unfold cohortSize eligibleCohortSize
  rw [← List.card_toFinset, ← List.card_toFinset]
  congr 1
  ext u
  simp only [List.mem_toFinset, List.mem_map, List.mem_filter,
    decide_eq_true_eq]
  constructor
  · rintro ⟨r, ⟨hr, hk⟩, hu⟩
    obtain ⟨p, hp, h1, h2⟩ := (exists_ret_raw profiles sessions
      observation_date horizon_days ignore_horizon
      (fun p => key p = k ∧ p.user_id = u)).mp ⟨r, hr, hk, hu⟩
    exact ⟨p, ⟨hp, h1⟩, h2⟩
  · rintro ⟨p, ⟨hp, h1⟩, h2⟩
    obtain ⟨r, hr, hk, hu⟩ := (exists_ret_raw profiles sessions
      observation_date horizon_days ignore_horizon
      (fun p => key p = k ∧ p.user_id = u)).mpr ⟨p, hp, h1, h2⟩
    exact ⟨r, ⟨hr, hk⟩, hu⟩

/-- The cohort size computed on LTV's joined table equals the
distinct-user count over the eligible profiles themselves. -/
theorem ltv_raw_cohortSize {K : Type} [DecidableEq K]
    (profiles : List Profile) (purchases : List Order)
    (observation_date : ℚ) (horizon_days : ℕ) (ignore_horizon : Bool)
    (key : Profile → K) (k : K) :
    cohortSize (ltv_result_raw profiles purchases observation_date
        horizon_days ignore_horizon)
      (fun r => r.profile.user_id) (fun r => key r.profile) k =
    eligibleCohortSize profiles observation_date horizon_days ignore_horizon
      key k := by
  unfold cohortSize eligibleCohortSize
  rw [← List.card_toFinset, ← List.card_toFinset]
  congr 1
  ext u
  simp only [List.mem_toFinset, List.mem_map, List.mem_filter,
    decide_eq_true_eq]
  constructor
  · rintro ⟨r, ⟨hr, hk⟩, hu⟩
    obtain ⟨p, hp, h1, h2⟩ := (exists_ltv_raw profiles purchases
      observation_date horizon_days ignore_horizon
      (fun p => key p = k ∧ p.user_id = u)).mp ⟨r, hr, hk, hu⟩
    exact ⟨p, ⟨hp, h1⟩, h2⟩
  · rintro ⟨p, ⟨hp, h1⟩, h2⟩
    obtain ⟨r, hr, hk, hu⟩ := (exists_ltv_raw profiles purchases
      observation_date horizon_days ignore_horizon
      (fun p => key p = k ∧ p.user_id = u)).mpr ⟨p, hp, h1, h2⟩
    exact ⟨r, ⟨hr, hk⟩, hu⟩

/-- A produced conversion table's `cohort_size` column is the grouped
distinct-user count of the joined table. -/
theorem conv_table_size {K : Type} [DecidableEq K] (df : List ConvRow)
    (key : Profile → K) (horizon_days : ℕ) (k : K)
    (hk : k ∈ tKeys (conversion_group_by_dimensions df key horizon_days)) :
    tSize (conversion_group_by_dimensions df key horizon_days) k =
      cohortSize df (fun r => r.profile.user_id) (fun r => key r.profile)
        k := by
  cases hcov : horizonCovered df (fun r => r.lifetime) horizon_days
  · simp [conversion_group_by_dimensions, hcov, tKeys] at hk
  · simp [conversion_group_by_dimensions, hcov, tSize]

/-- A produced retention table's `cohort_size` column is the grouped
distinct-user count of the joined table. -/
theorem ret_table_size {K : Type} [DecidableEq K] (df : List SessRow)
    (key : Profile → K) (horizon_days : ℕ) (k : K)
    (hk : k ∈ tKeys (retention_group_by_dimensions df key horizon_days)) :
    tSize (retention_group_by_dimensions df key horizon_days) k =
      cohortSize df (fun r => r.profile.user_id) (fun r => key r.profile)
        k := by
  cases hcov : horizonCovered df (fun r => r.lifetime) horizon_days
  · simp [retention_group_by_dimensions, hcov, tKeys] at hk
  · simp [retention_group_by_dimensions, hcov, tSize]

/-- A produced LTV table's `cohort_size` column is the grouped distinct-
user count of the joined table. -/
theorem ltv_table_size {K : Type} [DecidableEq K] (df : List LtvRow)
    (key : Profile → K) (horizon_days : ℕ) (k : K)
    (hk : k ∈ tKeys ((ltv_group_by_dimensions df key horizon_days).map
      (fun t => t.1))) :
    tSize ((ltv_group_by_dimensions df key horizon_days).map
        (fun t => t.1)) k =
      cohortSize df (fun r => r.profile.user_id) (fun r => key r.profile)
        k := by
  cases hcov : horizonCovered df revenueLifetime horizon_days
  · simp [ltv_group_by_dimensions, hcov, tKeys] at hk
  · simp [ltv_group_by_dimensions, hcov, tSize]

/-- C7.  In every cohort table produced by `get_conversion`,
`get_retention` or `get_ltv` (static and dynamics), the `cohort_size` of
a dimension-tuple row equals the number of distinct `user_id`s among the
horizon-eligible profiles mapping to that tuple, whether or not those
users had qualifying events. -/
theorem cohort_size_conservation :
    (∀ (K : Type) [DecidableEq K] (profiles : List Profile)
        (purchases : List Order) (observation_date : ℚ) (horizon_days : ℕ)
        (key : Profile → K) (ignore_horizon : Bool) (k : K) (k2 : K × ℤ),
      (k ∈ tKeys (get_conversion profiles purchases observation_date
          horizon_days key ignore_horizon).result_grouped →
        tSize (get_conversion profiles purchases observation_date
            horizon_days key ignore_horizon).result_grouped k =
          eligibleCohortSize profiles observation_date horizon_days
            ignore_horizon key k) ∧
      (k2 ∈ tKeys (get_conversion profiles purchases observation_date
          horizon_days key ignore_horizon).result_in_time →
        tSize (get_conversion profiles purchases observation_date
            horizon_days key ignore_horizon).result_in_time k2 =
          eligibleCohortSize profiles observation_date horizon_days
            ignore_horizon (fun p => (key p, p.dt)) k2)) ∧
    (∀ (K : Type) [DecidableEq K] (profiles : List Profile)
        (sessions : List Session) (observation_date : ℚ) (horizon_days : ℕ)
        (key : Profile → K) (ignore_horizon : Bool) (k : Bool × K)
        (k2 : (Bool × K) × ℤ),
      (k ∈ tKeys (get_retention profiles sessions observation_date
          horizon_days key ignore_horizon).result_grouped →
        tSize (get_retention profiles sessions observation_date
            horizon_days key ignore_horizon).result_grouped k =
          eligibleCohortSize profiles observation_date horizon_days
            ignore_horizon (fun p => (p.payer, key p)) k) ∧
      (k2 ∈ tKeys (get_retention profiles sessions observation_date
          horizon_days key ignore_horizon).result_in_time →
        tSize (get_retention profiles sessions observation_date
            horizon_days key ignore_horizon).result_in_time k2 =
          eligibleCohortSize profiles observation_date horizon_days
            ignore_horizon (fun p => ((p.payer, key p), p.dt)) k2)) ∧
    (∀ (K : Type) [DecidableEq K] (profiles : List Profile)
        (purchases : List Order) (observation_date : ℚ) (horizon_days : ℕ)
        (key : Profile → K) (ignore_horizon : Bool) (k : K) (k2 : K × ℤ),
      (k ∈ tKeys (get_ltv profiles purchases observation_date horizon_days
          key ignore_horizon).result_grouped →
        tSize (get_ltv profiles purchases observation_date horizon_days
            key ignore_horizon).result_grouped k =
          eligibleCohortSize profiles observation_date horizon_days
            ignore_horizon key k) ∧
      (k2 ∈ tKeys (get_ltv profiles purchases observation_date horizon_days
          key ignore_horizon).result_in_time →
        tSize (get_ltv profiles purchases observation_date horizon_days
            key ignore_horizon).result_in_time k2 =
          eligibleCohortSize profiles observation_date horizon_days
            ignore_horizon (fun p => (key p, p.dt)) k2)) := by
  refine ⟨?_, ?_, ?_⟩
  · intro K _ profiles purchases observation_date horizon_days key
      ignore_horizon k k2
    simp only [get_conversion]
    constructor
    · intro hk
      rw [conv_table_size _ key horizon_days k hk]
      exact conv_raw_cohortSize profiles purchases observation_date
        horizon_days ignore_horizon key k
    · intro hk2
      rw [conv_table_size _ (fun p => (key p, p.dt)) horizon_days k2 hk2]
      exact conv_raw_cohortSize profiles purchases observation_date
        horizon_days ignore_horizon (fun p => (key p, p.dt)) k2
  · intro K _ profiles sessions observation_date horizon_days key
      ignore_horizon k k2
    simp only [get_retention]
    constructor
    · intro hk
      rw [ret_table_size _ (fun p => (p.payer, key p)) horizon_days k hk]
      exact ret_raw_cohortSize profiles sessions observation_date
        horizon_days ignore_horizon (fun p => (p.payer, key p)) k
    · intro hk2
      rw [ret_table_size _ (fun p => ((p.payer, key p), p.dt)) horizon_days
        k2 hk2]
      exact ret_raw_cohortSize profiles sessions observation_date
        horizon_days ignore_horizon (fun p => ((p.payer, key p), p.dt)) k2
  · intro K _ profiles purchases observation_date horizon_days key
      ignore_horizon k k2
    simp only [get_ltv]
    constructor
    · intro hk
      rw [ltv_table_size _ key horizon_days k hk]
      exact ltv_raw_cohortSize profiles purchases observation_date
        horizon_days ignore_horizon key k
    · intro hk2
      rw [ltv_table_size _ (fun p => (key p, p.dt)) horizon_days k2 hk2]
      exact ltv_raw_cohortSize profiles purchases observation_date
        horizon_days ignore_horizon (fun p => (key p, p.dt)) k2

/-- A key of a produced ROI table never has `cac = 0`: its cohort size is
positive, so a zero cac would make `cohort_size / cac` the `+inf` that
the row filter drops. -/
theorem roi_keys_cac_ne_zero {K : Type} [DecidableEq K] (df : List LtvRow)
    (key : Profile → K) (horizon_days : ℕ) (k : K)
    (hk : k ∈ rKeys ((ltv_group_by_dimensions df key horizon_days).map
      (fun t => t.2))) :
    rCac ((ltv_group_by_dimensions df key horizon_days).map
      (fun t => t.2)) k ≠ 0 := by
  cases hcov : horizonCovered df revenueLifetime horizon_days
  · simp [ltv_group_by_dimensions, hcov, rKeys] at hk
  · simp only [ltv_group_by_dimensions, hcov, if_true, Option.map_some',
      rKeys, rCac] at hk ⊢
    rw [List.mem_filter] at hk
    intro hc0
    have hpos := cohortSize_pos_of_mem_keys df (fun r => r.profile.user_id)
      (fun r => key r.profile) k hk.1
    have := hk.2
    simp [hc0, hpos] at this

/-- C8.  Any cohort whose mean acquisition cost `cac` is 0 is absent from
the rows of the ROI table (and the ROI dynamics table) returned by
`get_ltv`: the `cac = 0` rows are dropped, not errors or infinities. -/
theorem roi_excludes_zero_cac :
    ∀ (K : Type) [DecidableEq K] (profiles : List Profile)
      (purchases : List Order) (observation_date : ℚ) (horizon_days : ℕ)
      (key : Profile → K) (ignore_horizon : Bool) (k : K) (k2 : K × ℤ),
      (k ∈ rKeys (get_ltv profiles purchases observation_date horizon_days
          key ignore_horizon).roi_grouped →
        rCac (get_ltv profiles purchases observation_date horizon_days key
          ignore_horizon).roi_grouped k ≠ 0) ∧
      (k2 ∈ rKeys (get_ltv profiles purchases observation_date horizon_days
          key ignore_horizon).roi_in_time →
        rCac (get_ltv profiles purchases observation_date horizon_days key
          ignore_horizon).roi_in_time k2 ≠ 0) := by
  intro K _ profiles purchases observation_date horizon_days key
    ignore_horizon k k2
  simp only [get_ltv]
  exact ⟨fun hk => roi_keys_cac_ne_zero _ key horizon_days k hk,
    fun hk2 => roi_keys_cac_ne_zero _ (fun p => (key p, p.dt)) horizon_days
      k2 hk2⟩

/-- A `filterMap` whose function is everywhere `some` is a `map`. -/
theorem filterMap_eq_map_of_some {A B : Type} (l : List A)
    (f : A → Option B) (g : A → B) (h : ∀ a ∈ l, f a = some (g a)) :
    l.filterMap f = l.map g := by
  induction l with
  | nil => rfl
  | cons a l ih =>
    rw [List.filterMap_cons, h a (List.mem_cons_self a l), List.map_cons,
      ih (fun x hx => h x (List.mem_cons_of_mem a hx))]

/-- Indexing the rolling-mean column inside its length. -/
theorem rollingMean_getD (window : ℕ) (xs : List (Option ℚ)) (j : ℕ)
    (hj : j < xs.length) :
    (rollingMean window xs).getD j none = rollingMeanAt window xs j := by
  unfold rollingMean
  simp [List.getD_eq_getElem?_getD, List.getElem?_range hj]

/-- C10.  Applying the smoother with window `w` to a fully-defined column
of length `n` keeps the shape and makes exactly the first `w - 1` cells
undefined; every later cell `j` is the trailing mean of the `w`
consecutive input cells ending at `j`. -/
theorem filter_data_rolling_gap (df : List (String × List (Option ℚ)))
    (window : ℕ) (c : String × List (Option ℚ)) (hw : 1 ≤ window)
    (hc : c ∈ df) (hdef : ∀ x ∈ c.2, x.isSome = true) :
    ((c.1, rollingMean window c.2) ∈ filter_data df window) ∧
    (rollingMean window c.2).length = c.2.length ∧
    ∀ j < c.2.length,
      (j + 1 < window → (rollingMean window c.2).getD j none = none) ∧
      (window ≤ j + 1 →
        (rollingMean window c.2).getD j none =
          some ((((List.range window).map fun i =>
            ((c.2.getD (j + 1 - window + i) none).getD 0)).sum) /
            (window : ℚ))) := by
  refine ⟨List.mem_map.mpr ⟨c, hc, rfl⟩, by simp [rollingMean], ?_⟩
  intro j hj
  constructor
  · intro hjw
    rw [rollingMean_getD window c.2 j hj]
    unfold rollingMeanAt
    rw [if_neg]
    rintro ⟨h1, -⟩
    omega
  · intro hwj
    rw [rollingMean_getD window c.2 j hj]
    unfold rollingMeanAt
    rw [if_pos ⟨hwj, by omega⟩]
    have hsome : ∀ i ∈ List.range window,
        c.2.getD (j + 1 - window + i) none =
          some ((c.2.getD (j + 1 - window + i) none).getD 0) := by
      intro i hi
      rw [List.mem_range] at hi
      have hidx : j + 1 - window + i < c.2.length := by omega
      have hmem : c.2.getD (j + 1 - window + i) none ∈ c.2 := by
        rw [List.getD_eq_getElem?_getD, List.getElem?_eq_getElem hidx]
        exact List.getElem_mem hidx
      have hds := hdef _ hmem
      cases hcell : c.2.getD (j + 1 - window + i) none
      · rw [hcell] at hds
        simp at hds
      · simp
    rw [filterMap_eq_map_of_some _ _ _ hsome, if_pos (by simp)]

section ConcreteEval

attribute [local semireducible] Rat.mul Rat.inv Rat.add Rat.sub

/-- C4, counterexample to the claim as stated: `filter_data` hands the
caller back a table whose columns were replaced in place (here a 2-row
column smoothed with window 2), and `get_profiles` hands the caller back
an `ad_costs` table whose `dt` timestamp 1/2 was floored to 0. -/
theorem mutation_counterexample :
    filter_data_df_after [("x", [some 1, some 3])] 2 ≠
      [("x", [some (1 : ℚ), some 3])] ∧
    get_profiles_ad_costs_after [⟨(1 : ℚ)/2, "ads", 10⟩] ≠
      [⟨(1 : ℚ)/2, "ads", 10⟩] := by
  decide

/-- C9.  A profile whose (acquisition date, channel) pair matches no row
of the ad-costs table keeps the `fillna(0)` default acquisition cost 0. -/
theorem organic_acquisition_cost_zero (visits : List Visit)
    (orders : List Order) (ad_costs : List AdCost) (p : Profile)
    (hp : p ∈ get_profiles visits orders ad_costs)
    (hnone : ∀ ac ∈ ad_costs,
      ¬(dateOf ac.dt = p.dt ∧ ac.channel = p.channel)) :
    p.acquisition_cost = 0 := by
  simp only [get_profiles, List.mem_flatMap] at hp
  obtain ⟨q, hq, hpq⟩ := hp
  rcases hms : ad_costs.filter (fun ac =>
      decide (dateOf ac.dt = q.dt) && decide (ac.channel = q.channel)) with
    _ | ⟨a, l⟩
  · rw [hms] at hpq
    simp only [List.mem_singleton] at hpq
    subst hpq
    exact baseProfiles_cost_zero visits orders _ hq
  · rw [hms] at hpq
    simp only [List.mem_map] at hpq
    obtain ⟨ac, hac, hpac⟩ := hpq
    have hacfil : ac ∈ ad_costs.filter (fun ac =>
        decide (dateOf ac.dt = q.dt) && decide (ac.channel = q.channel)) := by
      rw [hms]; exact hac
    rw [List.mem_filter] at hacfil
    have hdtch : dateOf ac.dt = q.dt ∧ ac.channel = q.channel := by
      have := hacfil.2
      simp only [Bool.and_eq_true, decide_eq_true_eq] at this
      exact this
    exfalso
    refine hnone ac hacfil.1 ?_
    have hdt : p.dt = q.dt := by rw [← hpac]
    have hch : p.channel = q.channel := by rw [← hpac]
    rw [hdt, hch]
    exact hdtch

/-- C9, witness: a profile acquired on day 0 via an organic channel while
the only ad-cost row is for a different channel. -/
theorem organic_acquisition_cost_zero_witness :
    (mkProfile 1 0 "org" false 0 ∈
      get_profiles [⟨1, 0, "org", "d", "r"⟩] [] [⟨0, "ads", 10⟩]) ∧
    (∀ ac ∈ ([⟨0, "ads", 10⟩] : List AdCost),
      ¬(dateOf ac.dt = (mkProfile 1 0 "org" false 0).dt ∧
        ac.channel = (mkProfile 1 0 "org" false 0).channel)) ∧
    (mkProfile 1 0 "org" false 0).acquisition_cost = 0 :=
  ⟨by decide, by decide,
    organic_acquisition_cost_zero [⟨1, 0, "org", "d", "r"⟩] []
      [⟨0, "ads", 10⟩] (mkProfile 1 0 "org" false 0) (by decide) (by decide)⟩

/-- C2 (the code fails on the spec's end-to-end example).  With 2 profiles
acquired on day 0 via channel ads (ad spend 10, so acquisition cost 5
each) and a single purchase of revenue 20 at lifetime day 2, `get_ltv`
with `horizon_days = 3` does not return the LTV/ROI tables the spec shows:
the revenue pivot has the single column 2, so the column selection
`result[['cohort_size'] + list(range(3))]` raises `KeyError` for the
missing day columns 0 and 1 (modelled as the `none` results). -/
theorem ltv_example_truncation_fails :
    exEndToEndProfiles.map Profile.acquisition_cost = [5, 5] ∧
    exEndToEndProfiles.map Profile.dt = [0, 0] ∧
    exEndToEndProfiles.map Profile.channel = ["ads", "ads"] ∧
    (get_ltv exEndToEndProfiles exEndToEndOrders 2 3 Profile.channel
        false).result_grouped = none ∧
    (get_ltv exEndToEndProfiles exEndToEndOrders 2 3 Profile.channel
        false).roi_grouped = none := by
  refine ⟨by decide, by decide, by decide, rfl, rfl⟩

/-- C1, counterexample to the claim as stated for retention: a produced
retention table (2 non-paying users, sessions on days 0,0,1, horizon 2)
whose row decreases from day 0 (cell 1) to day 1 (cell 1/2), because the
retention grouping never cumulates. -/
theorem retention_not_monotone_counterexample :
    ((get_retention [mkProfile 1 0 "ads" false 0, mkProfile 2 0 "ads" false 0]
        [⟨1, 0⟩, ⟨2, 0⟩, ⟨1, 1⟩] 1 2 (fun _ => (0 : ℕ))
        false).result_grouped).isSome = true ∧
    tCell (get_retention [mkProfile 1 0 "ads" false 0,
        mkProfile 2 0 "ads" false 0]
        [⟨1, 0⟩, ⟨2, 0⟩, ⟨1, 1⟩] 1 2 (fun _ => (0 : ℕ))
        false).result_grouped (false, 0) 1 <
      tCell (get_retention [mkProfile 1 0 "ads" false 0,
        mkProfile 2 0 "ads" false 0]
        [⟨1, 0⟩, ⟨2, 0⟩, ⟨1, 1⟩] 1 2 (fun _ => (0 : ℕ))
        false).result_grouped (false, 0) 0 := by
  constructor <;> decide

/-- C1, witness: a concrete conversion table (first purchases at lifetimes
0 and 1, horizon 2) at which the monotonicity theorem applies. -/
theorem conversion_cells_monotone_witness :
    (0 + 1 < 2) ∧
    (tCell (get_conversion
        [mkProfile 1 0 "ads" false 0, mkProfile 2 0 "ads" false 0]
        [⟨1, 0, 10⟩, ⟨2, 1, 10⟩] 1 2 Profile.channel
        false).result_grouped ("ads") 0 ≤
      tCell (get_conversion
        [mkProfile 1 0 "ads" false 0, mkProfile 2 0 "ads" false 0]
        [⟨1, 0, 10⟩, ⟨2, 1, 10⟩] 1 2 Profile.channel
        false).result_grouped ("ads") (0 + 1)) ∧
    (tCell (get_conversion
        [mkProfile 1 0 "ads" false 0, mkProfile 2 0 "ads" false 0]
        [⟨1, 0, 10⟩, ⟨2, 1, 10⟩] 1 2 Profile.channel
        false).result_in_time (("ads"), 0) 0 ≤
      tCell (get_conversion
        [mkProfile 1 0 "ads" false 0, mkProfile 2 0 "ads" false 0]
        [⟨1, 0, 10⟩, ⟨2, 1, 10⟩] 1 2 Profile.channel
        false).result_in_time (("ads"), 0) (0 + 1)) :=
  ⟨by decide,
    conversion_cells_monotone String
      [mkProfile 1 0 "ads" false 0, mkProfile 2 0 "ads" false 0]
      [⟨1, 0, 10⟩, ⟨2, 1, 10⟩] 1 2 Profile.channel false ("ads")
      (("ads"), 0) 0 (by decide)⟩

/-- C3, witness: one profile and no events at all, horizon 1 — lifetime
day 0 has no joined row, and all three engines fail. -/
theorem missing_day_column_fails_witness :
    ((0 : ℕ) < 1) ∧
    (∀ r ∈ conv_result_raw [mkProfile 1 0 "ads" false 0] [] 0 1 false,
      r.lifetime ≠ some ((0 : ℕ) : ℤ)) ∧
    (get_conversion [mkProfile 1 0 "ads" false 0] [] 0 1 Profile.channel
        false).result_grouped = none ∧
    (∀ r ∈ ret_result_raw [mkProfile 1 0 "ads" false 0] [] 0 1 false,
      r.lifetime ≠ some ((0 : ℕ) : ℤ)) ∧
    (get_retention [mkProfile 1 0 "ads" false 0] [] 0 1 Profile.channel
        false).result_grouped = none ∧
    (∀ r ∈ ltv_result_raw [mkProfile 1 0 "ads" false 0] [] 0 1 false,
      r.lifetime ≠ some ((0 : ℕ) : ℤ)) ∧
    (get_ltv [mkProfile 1 0 "ads" false 0] [] 0 1 Profile.channel
        false).result_grouped = none :=
  ⟨by decide, by decide,
    (missing_day_column_fails.1 String [mkProfile 1 0 "ads" false 0] [] 0 1
      Profile.channel false 0 (by decide) (by decide)).1,
    by decide,
    (missing_day_column_fails.2.1 String [mkProfile 1 0 "ads" false 0] [] 0 1
      Profile.channel false 0 (by decide) (by decide)).1,
    by decide,
    (missing_day_column_fails.2.2 String [mkProfile 1 0 "ads" false 0] [] 0 1
      Profile.channel false 0 (by decide) (by decide)).1⟩

/-- C6, witness: the bounds theorem applied to a concrete conversion
table and a concrete retention table. -/
theorem conversion_retention_cells_bounded_witness :
    (([mkProfile 1 0 "ads" false 0, mkProfile 2 0 "ads" false 0].map
      Profile.user_id).Nodup) ∧ ((0 : ℕ) < 2) ∧
    (("ads") ∈ tKeys (get_conversion
      [mkProfile 1 0 "ads" false 0, mkProfile 2 0 "ads" false 0]
      [⟨1, 0, 10⟩, ⟨2, 1, 10⟩] 1 2 Profile.channel false).result_grouped) ∧
    (0 ≤ tCell (get_conversion
        [mkProfile 1 0 "ads" false 0, mkProfile 2 0 "ads" false 0]
        [⟨1, 0, 10⟩, ⟨2, 1, 10⟩] 1 2 Profile.channel
        false).result_grouped ("ads") 0 ∧
      tCell (get_conversion
        [mkProfile 1 0 "ads" false 0, mkProfile 2 0 "ads" false 0]
        [⟨1, 0, 10⟩, ⟨2, 1, 10⟩] 1 2 Profile.channel
        false).result_grouped ("ads") 0 ≤ 1) ∧
    ((false, 0) ∈ tKeys (get_retention
      [mkProfile 1 0 "ads" false 0, mkProfile 2 0 "ads" false 0]
      [⟨1, 0⟩, ⟨2, 0⟩, ⟨1, 1⟩] 1 2 (fun _ => (0 : ℕ))
      false).result_grouped) ∧
    (0 ≤ tCell (get_retention
        [mkProfile 1 0 "ads" false 0, mkProfile 2 0 "ads" false 0]
        [⟨1, 0⟩, ⟨2, 0⟩, ⟨1, 1⟩] 1 2 (fun _ => (0 : ℕ))
        false).result_grouped (false, 0) 0 ∧
      tCell (get_retention
        [mkProfile 1 0 "ads" false 0, mkProfile 2 0 "ads" false 0]
        [⟨1, 0⟩, ⟨2, 0⟩, ⟨1, 1⟩] 1 2 (fun _ => (0 : ℕ))
        false).result_grouped (false, 0) 0 ≤ 1) :=
  ⟨by decide, by decide, by decide,
    (conversion_retention_cells_bounded.1 String
      [mkProfile 1 0 "ads" false 0, mkProfile 2 0 "ads" false 0]
      [⟨1, 0, 10⟩, ⟨2, 1, 10⟩] 1 2 Profile.channel false ("ads")
      (("ads"), 0) 0 (by decide) (by decide)).1 (by decide),
    by decide,
    (conversion_retention_cells_bounded.2 ℕ
      [mkProfile 1 0 "ads" false 0, mkProfile 2 0 "ads" false 0]
      [⟨1, 0⟩, ⟨2, 0⟩, ⟨1, 1⟩] 1 2 (fun _ => (0 : ℕ)) false (false, 0)
      ((false, 0), 0) 0 (by decide)).1 (by decide)⟩

/-- C7, witness: cohort-size conservation on concrete conversion,
retention and LTV tables. -/
theorem cohort_size_conservation_witness :
    (("ads") ∈ tKeys (get_conversion
      [mkProfile 1 0 "ads" false 0, mkProfile 2 0 "ads" false 0]
      [⟨1, 0, 10⟩, ⟨2, 1, 10⟩] 1 2 Profile.channel false).result_grouped) ∧
    tSize (get_conversion
        [mkProfile 1 0 "ads" false 0, mkProfile 2 0 "ads" false 0]
        [⟨1, 0, 10⟩, ⟨2, 1, 10⟩] 1 2 Profile.channel
        false).result_grouped ("ads") =
      eligibleCohortSize
        [mkProfile 1 0 "ads" false 0, mkProfile 2 0 "ads" false 0] 1 2
        false Profile.channel ("ads") ∧
    ((false, 0) ∈ tKeys (get_retention
      [mkProfile 1 0 "ads" false 0, mkProfile 2 0 "ads" false 0]
      [⟨1, 0⟩, ⟨2, 0⟩, ⟨1, 1⟩] 1 2 (fun _ => (0 : ℕ))
      false).result_grouped) ∧
    tSize (get_retention
        [mkProfile 1 0 "ads" false 0, mkProfile 2 0 "ads" false 0]
        [⟨1, 0⟩, ⟨2, 0⟩, ⟨1, 1⟩] 1 2 (fun _ => (0 : ℕ))
        false).result_grouped (false, 0) =
      eligibleCohortSize
        [mkProfile 1 0 "ads" false 0, mkProfile 2 0 "ads" false 0] 1 2
        false (fun p => (p.payer, (fun _ => (0 : ℕ)) p)) (false, 0) ∧
    (("ads") ∈ tKeys (get_ltv [mkProfile 1 0 "ads" false 5] [⟨1, 0, 20⟩]
      0 1 Profile.channel false).result_grouped) ∧
    tSize (get_ltv [mkProfile 1 0 "ads" false 5] [⟨1, 0, 20⟩] 0 1
        Profile.channel false).result_grouped ("ads") =
      eligibleCohortSize [mkProfile 1 0 "ads" false 5] 0 1 false
        Profile.channel ("ads") :=
  ⟨by decide,
    (cohort_size_conservation.1 String
      [mkProfile 1 0 "ads" false 0, mkProfile 2 0 "ads" false 0]
      [⟨1, 0, 10⟩, ⟨2, 1, 10⟩] 1 2 Profile.channel false ("ads")
      (("ads"), 0)).1 (by decide),
    by decide,
    (cohort_size_conservation.2.1 ℕ
      [mkProfile 1 0 "ads" false 0, mkProfile 2 0 "ads" false 0]
      [⟨1, 0⟩, ⟨2, 0⟩, ⟨1, 1⟩] 1 2 (fun _ => (0 : ℕ)) false (false, 0)
      ((false, 0), 0)).1 (by decide),
    by decide,
    (cohort_size_conservation.2.2 String [mkProfile 1 0 "ads" false 5]
      [⟨1, 0, 20⟩] 0 1 Profile.channel false ("ads") (("ads"), 0)).1
      (by decide)⟩

/-- C8, witness: a concrete ROI table with one cohort of positive cac. -/
theorem roi_excludes_zero_cac_witness :
    (("ads") ∈ rKeys (get_ltv [mkProfile 1 0 "ads" false 5] [⟨1, 0, 20⟩]
      0 1 Profile.channel false).roi_grouped) ∧
    rCac (get_ltv [mkProfile 1 0 "ads" false 5] [⟨1, 0, 20⟩] 0 1
      Profile.channel false).roi_grouped ("ads") ≠ 0 :=
  ⟨by decide,
    (roi_excludes_zero_cac String [mkProfile 1 0 "ads" false 5]
      [⟨1, 0, 20⟩] 0 1 Profile.channel false ("ads") (("ads"), 0)).1
      (by decide)⟩

/-- C10, witness: smoothing a fully-defined 3-row column with window 2
leaves cell 0 undefined and makes cell 1 the mean (1 + 3) / 2 = 2. -/
theorem filter_data_rolling_gap_witness :
    ((1 : ℕ) ≤ 2) ∧
    ((("x" : String), [some (1 : ℚ), some 3, some 5]) ∈
      [(("x" : String), [some (1 : ℚ), some 3, some 5])]) ∧
    (∀ x ∈ [some (1 : ℚ), some 3, some 5], x.isSome = true) ∧
    ((("x" : String), rollingMean 2 [some (1 : ℚ), some 3, some 5]) ∈
      filter_data [(("x" : String), [some (1 : ℚ), some 3, some 5])] 2) ∧
    (rollingMean 2 [some (1 : ℚ), some 3, some 5]).getD 0 none = none ∧
    (rollingMean 2 [some (1 : ℚ), some 3, some 5]).getD 1 none =
      some 2 := by
  have h := filter_data_rolling_gap
    [(("x" : String), [some (1 : ℚ), some 3, some 5])] 2
    (("x" : String), [some (1 : ℚ), some 3, some 5])
    (by decide) (by decide) (by decide)
  refine ⟨by decide, by decide, by decide, h.1, ?_, ?_⟩
  · exact (h.2.2 0 (by decide)).1 (by decide)
  · have h2 := (h.2.2 1 (by decide)).2 (by decide)
    rw [h2]
    decide

end ConcreteEval

end Spec2Proof
